import Mathlib

/-!
Verification of the lock-free virtual page allocator in
`src/tcmalloc/virtual_page_allocator.cc` / `virtual_page_allocator.h`.

The C++ code works on `std::uint64_t` and `std::uint32_t`; the embedding uses
`Nat` with explicit reduction modulo `2 ^ 64` (respectively `2 ^ 32`) at every
point where the machine arithmetic can wrap.  Addresses are modelled as byte
offsets from the base `pages_` of the 64 GiB window.
-/

set_option maxRecDepth 100000

namespace VirtualPageAllocator

/-- Constant `num_buffer_slots = 1 << 24` (virtual_page_allocator.cc, line 30). -/
def num_buffer_slots : Nat := 1 <<< 24

/-- Constant `flag_allocated = static_cast<uint32_t>(1) << 31`
(virtual_page_allocator.cc, line 31). -/
def flag_allocated : Nat := 1 <<< 31

/-- Constant `page_size = 4096` (virtual_page_allocator.cc, line 29). -/
def page_size : Nat := 4096

/-- Embedding of `CrashIfNoFreePagesLeft` (lines 15-19): the process is
terminated via `std::terminate()` exactly when `bufferused >> 32 == 0`, that
is, when the upper 32 bits of the packed word (the free-page count) are zero.
The function returns `true` exactly when the code terminates the process. -/
def CrashIfNoFreePagesLeft (bufferused : Nat) : Bool :=
  bufferused >>> 32 == 0

/-- Embedding of `MarkPageAllocated` (lines 21-27):
`(old_bufferused - 0x100000000 & 0xFFFFFFFF00000000) | ((old_bufferused + 1) & 0x00FFFFFF)`.
C++ precedence parses the first operand as
`(old_bufferused - 0x100000000) & 0xFFFFFFFF00000000`; unsigned 64-bit
subtraction and addition wrap modulo `2 ^ 64`. -/
def MarkPageAllocated (old_bufferused : Nat) : Nat :=
  (((old_bufferused + 2 ^ 64 - 0x100000000) % 2 ^ 64) &&& 0xFFFFFFFF00000000) |||
    (((old_bufferused + 1) % 2 ^ 64) &&& 0x00FFFFFF)

/-- Left shift of a `std::uint64_t`.  A shift count of 64 or more is undefined
behaviour in C++; x86-64 and AArch64 both take the count modulo 64 for a
64-bit operand, and the model follows that hardware behaviour. -/
def shl64 (x k : Nat) : Nat :=
  (x <<< (k % 64)) % 2 ^ 64

/-- Embedding of the ring-slot computation in `Free` (line 103):
`(bufferused << 32 + bufferused) % num_buffer_slots`.  C++ precedence binds
`+` tighter than `<<`, so the shift count is the `std::uint64_t` sum
`32 + bufferused`, not a shift by 32 followed by an addition. -/
def freeBufferIndex (bufferused : Nat) : Nat :=
  shl64 bufferused ((32 + bufferused) % 2 ^ 64) % num_buffer_slots

/-- Slot prescribed by the specification for a free, for comparison with
`freeBufferIndex`: the target slot is `(old_head + old_free_count) mod N`,
with the head in the bottom 32 bits and the free count in the top 32 bits of
the packed word (spec section 4.2.2; claim C2). -/
def freeSlotSpec (bufferused : Nat) : Nat :=
  (bufferused % 2 ^ 32 + bufferused >>> 32) % num_buffer_slots

/-- Packing of the head/count word documented in virtual_page_allocator.h,
lines 34-38: the first used index in the bottom 32 bits and the number of
used elements in the top 32 bits of one `std::uint64_t`. -/
def packBufferused (head free_count : Nat) : Nat :=
  free_count * 2 ^ 32 + head

/-- Pointwise update of a total map; used for ring-slot stores and for
per-page protection changes. -/
def setAt {α : Type} (f : Nat → α) (k : Nat) (v : α) : Nat → α :=
  fun i => if i = k then v else f i

/-- State of one `VirtualPageAllocator` (virtual_page_allocator.h, lines
20-38): the packed word `page_bufferused_`, the ring `free_page_buffer_`
(slot `i` holds one `std::uint32_t`; only slots below `num_buffer_slots`
exist in C++, and no reachable run reads any other slot), and the per-page
protection of the 64 GiB window `pages_` (`true` = readable and writable,
`false` = `PROT_NONE`). -/
structure AllocatorState where
  page_bufferused_ : Nat
  free_page_buffer_ : Nat → Nat
  accessible : Nat → Bool

/-- State established by the constructor (lines 34-45): the packed word is
`uint64_t(num_buffer_slots) << 32` (head 0, free count `num_buffer_slots`),
ring slot `i` holds `i`, and the whole window is mapped `PROT_NONE` (the
`mmap` of `pages_` uses `PROT_NONE` and `Allocate` performs no protection
change), so every page starts inaccessible. -/
def initialState : AllocatorState :=
  { page_bufferused_ := num_buffer_slots <<< 32
    free_page_buffer_ := fun i => i
    accessible := fun _ => false }

/-- Result of the claim phase of `Allocate`: either the process terminated in
`CrashIfNoFreePagesLeft`, or the compare-exchange succeeded on the packed
word value carried by `claimed`. -/
inductive ClaimResult where
  | crash
  | claimed (bufferused : Nat)
deriving DecidableEq

/-- Claim phase of `Allocate` (lines 48-56): load the packed word, terminate
if the free count is zero, then retry the weak compare-exchange until it
succeeds; every failed attempt leaves the freshly read word in `bufferused`
and re-checks exhaustion before retrying.  `later` is the sequence of values
the failed compare-exchanges read back (concurrent interference); the
compare-exchange succeeds once `later` is exhausted.  In a single-threaded
run `later = []`: a spurious weak-CAS failure re-reads the same value and
changes nothing. -/
def claimLoop : Nat → List Nat → ClaimResult
  | b, later =>
    if CrashIfNoFreePagesLeft b then .crash
    else
      match later with
      | [] => .claimed b
      | b' :: rest => claimLoop b' rest

/-- Loop condition of the consumer spin (line 73).  The source text is
`page_index & flag_allocated != 0`; C++ parses it as
`page_index & (flag_allocated != 0)` because `!=` binds tighter than `&`,
and the comparison converts to the integer 1, so the loop keeps spinning
exactly while the loaded slot value is odd. -/
def spinCondition (page_index : Nat) : Bool :=
  page_index &&& (if flag_allocated != 0 then 1 else 0) != 0

/-- Result of a single-threaded run of `Allocate`: the returned byte offset
together with the state at return, or process termination inside
`CrashIfNoFreePagesLeft`, or the spin loop of lines 70-73 never exiting
(with no other thread the re-loaded slot value never changes, so the loop
exits iff its condition fails on the first load). -/
inductive AllocResult where
  | ok (offset : Nat) (state : AllocatorState)
  | crash
  | spinsForever

/-- Single-threaded run of `VirtualPageAllocator::Allocate` (lines 47-84).
The claim phase is `claimLoop` with no interference; the claimed word is
truncated to its bottom 32 bits (`static_cast<std::uint32_t>(bufferused)`,
line 63) to obtain the slot index, the slot is loaded and the spin loop of
lines 70-73 runs, the slot is poisoned with `page_index | flag_allocated`
(lines 77-78), and the function returns `pages_ + page_index * page_size`
(line 80), modelled as the byte offset.  `Allocate` contains no `mprotect`
call, so the protection map is left unchanged. -/
def Allocate (s : AllocatorState) : AllocResult :=
  match claimLoop s.page_bufferused_ [] with
  | .crash => .crash
  | .claimed bufferused =>
    let buffer_index := bufferused % 2 ^ 32
    let page_index := s.free_page_buffer_ buffer_index
    if spinCondition page_index then .spinsForever
    else
      .ok (page_index * page_size)
        { page_bufferused_ := MarkPageAllocated bufferused
          free_page_buffer_ :=
            setAt s.free_page_buffer_ buffer_index (page_index ||| flag_allocated)
          accessible := s.accessible }

/-- Observable actions of `Free`, in program order. -/
inductive Event where
  | setInaccessible (page : Nat)
  | fetchAddH (old_bufferused : Nat)
  | storeSlot (buffer_index page_index : Nat)
deriving DecidableEq

/-- Embedding of `VirtualPageAllocator::Free` (lines 86-108) together with
the ordered list of its observable actions: `mprotect(page, page_size,
PROT_NONE)` (line 88), `fetch_add(0x100000000)` on the packed word (lines
95-96), and the store of the page index into ring slot
`freeBufferIndex` computed from the pre-addition value (lines 103-107).
The argument is the byte offset of the freed address from `pages_`; the
stored page index is the C++ cast of `(page - pages_) / page_size` to
`std::uint32_t` (line 90).  The kernel rejects a misaligned `mprotect`
address with `EINVAL` (the ignored return value), so the protection map
changes only when the offset is page-aligned; the call itself is made

unconditionally and is recorded in the trace either way. -/
def FreeWithTrace (s : AllocatorState) (offset : Nat) :
    AllocatorState × List Event :=
  let page_index := offset / page_size % 2 ^ 32
  let accessible1 :=
    if offset % page_size = 0 then setAt s.accessible (offset / page_size) false
    else s.accessible
  let bufferused := s.page_bufferused_
  let buffer_index := freeBufferIndex bufferused
  (⟨(bufferused + 0x100000000) % 2 ^ 64,
    setAt s.free_page_buffer_ buffer_index page_index,
    accessible1⟩,
   [.setInaccessible (offset / page_size), .fetchAddH bufferused,
    .storeSlot buffer_index page_index])

/-- State transformer of `Free`: the first component of `FreeWithTrace`. -/
def Free (s : AllocatorState) (offset : Nat) : AllocatorState :=
  (FreeWithTrace s offset).1

/-- One public operation of the façade. -/
inductive Op where
  | alloc
  | free (offset : Nat)

/-- Machine state for whole-history reasoning: the allocator state together
with the byte offsets of the live allocations (returned by `Allocate` and
not yet freed). -/
structure MState where
  alloc : AllocatorState
  live : List Nat

/-- One completed public operation.  An `Allocate` that terminates the
process or spins forever yields no successor state; a `free` is considered
only when its argument is a live allocation, which is the usage discipline
the specification assumes (every free matches a live allocation). -/
def step (m : MState) : Op → Option MState
  | .alloc =>
    match Allocate m.alloc with
    | .ok offset s' => some ⟨s', offset :: m.live⟩
    | _ => none
  | .free offset =>
    if offset ∈ m.live then some ⟨Free m.alloc offset, m.live.erase offset⟩
    else none

/-- Initial machine state: a freshly constructed allocator with no live
allocations. -/
def initialMState : MState := ⟨initialState, []⟩

/-- Run a list of operations from a machine state; `none` when some
operation does not complete. -/
def run (m : MState) : List Op → Option MState
  | [] => some m
  | op :: rest =>
    match step m op with
    | some m' => run m' rest
    | none => none

/-- State of the allocator after the first `Allocate` on a fresh allocator
(the `.ok` branch of `Allocate initialState`). -/
def afterFirstAlloc : AllocatorState :=
  match Allocate initialState with
  | .ok _ s => s
  | _ => initialState

/-- Machine state after one completed `Allocate` on a fresh allocator. -/
def mstate1 : MState :=
  match step initialMState .alloc with
  | some m => m
  | none => initialMState

/-- Machine state after `Allocate` and then `Free` of the returned offset on
a fresh allocator. -/
def mstate2 : MState :=
  match step mstate1 (.free 0) with
  | some m => m
  | none => mstate1

/-- Ring/partition property of claim C7, for a given head, free count, ring
content and live-offset list: the live region `R[head], ..., R[head +
free_count - 1]` (indices mod `num_buffer_slots`) holds page indices below
`num_buffer_slots`, none carrying `flag_allocated`, pairwise distinct; and
every page index below `num_buffer_slots` is either in the live region or
held by exactly one live allocation — never both, never neither. -/
def RingRegionOk (head free_count : Nat) (ring : Nat → Nat)
    (live : List Nat) : Prop :=
  (∀ i, i < free_count → ring ((head + i) % num_buffer_slots) < num_buffer_slots) ∧
  (∀ i, i < free_count → ring ((head + i) % num_buffer_slots) &&& flag_allocated = 0) ∧
  (∀ i j, i < free_count → j < free_count →
    ring ((head + i) % num_buffer_slots) = ring ((head + j) % num_buffer_slots) →
    i = j) ∧
  (∀ p, p < num_buffer_slots →
    ((∃ i, i < free_count ∧ ring ((head + i) % num_buffer_slots) = p) ∧
        live.count (p * page_size) = 0) ∨
      (¬ (∃ i, i < free_count ∧ ring ((head + i) % num_buffer_slots) = p) ∧
        live.count (p * page_size) = 1))

/-- Ring/partition invariant of claim C7 for a machine state, with head and
free count read from the packed word. -/
def RingInvariant (m : MState) : Prop :=
  RingRegionOk (m.alloc.page_bufferused_ % 2 ^ 32)
    (m.alloc.page_bufferused_ >>> 32) m.alloc.free_page_buffer_ m.live

/-- Numeric value of `num_buffer_slots`. -/
theorem num_buffer_slots_eq : num_buffer_slots = 16777216 := rfl

/-- Numeric value of `flag_allocated`. -/
theorem flag_allocated_eq : flag_allocated = 2147483648 := rfl

/-- Helper: a page index below `2 ^ 24` never carries `flag_allocated`. -/
theorem land_flag_eq_zero (v : Nat) (hv : v < 16777216) :
    v &&& flag_allocated = 0 := by
  have h31 : flag_allocated = 2 ^ 31 := by norm_num [flag_allocated_eq]
  rw [h31, Nat.and_two_pow,
    Nat.testBit_lt_two_pow (lt_of_lt_of_le hv (by norm_num))]
  simp

/-- Helper: the mask `0xFFFFFFFF00000000` extracts the upper half of a packed
64-bit word. -/
theorem land_high_mask (f h : Nat) (hh : h < 2 ^ 32) (hf : f < 2 ^ 32) :
    (2 ^ 32 * f + h) &&& 0xFFFFFFFF00000000 = 2 ^ 32 * f := by
  have hmask : (0xFFFFFFFF00000000 : Nat) = 2 ^ 32 * (2 ^ 32 - 1) := by norm_num
  apply Nat.eq_of_testBit_eq
  intro j
  rw [Nat.testBit_land, hmask, Nat.testBit_mul_pow_two_add _ hh,
    Nat.testBit_mul_pow_two, Nat.testBit_mul_pow_two]
  by_cases hj : j < 32
  · have hng : ¬ (32 ≤ j) := by omega
    simp [hj, hng]
  · have hge : 32 ≤ j := by omega
    have hd : (decide (j ≥ 32)) = true := by simp [hge]
    rw [if_neg hj, hd, Bool.true_and, Bool.true_and]
    by_cases hj2 : j - 32 < 32
    · have hm : Nat.testBit (2 ^ 32 - 1) (j - 32) = true := by
        rw [Nat.testBit_two_pow_sub_one]
        simp [hj2]
      rw [hm, Bool.and_true]
    · have hf' : f.testBit (j - 32) = false :=
        Nat.testBit_lt_two_pow
          (lt_of_lt_of_le hf (Nat.pow_le_pow_right (by norm_num) (by omega)))
      rw [hf']
      simp

/-- Claim C8 (confirmed): for every packed word with `free_count ≥ 1`, the
value `Allocate` installs with its compare-and-swap, namely
`MarkPageAllocated` of the packed word, is exactly the packing of head
`(head + 1) mod num_buffer_slots` and free count `free_count - 1`; no other
bits are set. -/
theorem markPageAllocated_packed_update (head free_count : Nat)
    (hh : head < 2 ^ 32) (h1 : 1 ≤ free_count) (h2 : free_count < 2 ^ 32) :
    MarkPageAllocated (packBufferused head free_count) =
      packBufferused ((head + 1) % num_buffer_slots) (free_count - 1) := by
  have p64 : (2 : Nat) ^ 64 = 18446744073709551616 := by norm_num
  have p32 : (2 : Nat) ^ 32 = 4294967296 := by norm_num
  have p24 : (2 : Nat) ^ 24 = 16777216 := by norm_num
  have e1 : (packBufferused head free_count + 2 ^ 64 - 0x100000000) % 2 ^ 64
      = 2 ^ 32 * (free_count - 1) + head := by
    unfold packBufferused
    rw [p64, p32] at *
    omega
  have e2 : ((packBufferused head free_count + 1) % 2 ^ 64) &&& 0x00FFFFFF
      = (head + 1) % 16777216 := by
    have hm : (0x00FFFFFF : Nat) = 2 ^ 24 - 1 := by norm_num
    rw [hm, Nat.and_pow_two_sub_one_eq_mod]
    unfold packBufferused
    rw [p64, p32, p24]
    omega
  unfold MarkPageAllocated
  rw [e1, e2, land_high_mask (free_count - 1) head hh (by omega),
    ← Nat.mul_add_lt_is_or (by omega) (free_count - 1)]
  unfold packBufferused num_buffer_slots
  have hsh : (1 : Nat) <<< 24 = 16777216 := rfl
  rw [p32, hsh]
  omega

/-- Witness for claim C8 at head 5, free count 7. -/
theorem markPageAllocated_packed_update_witness :
    (5 : Nat) < 2 ^ 32 ∧ (1 : Nat) ≤ 7 ∧ (7 : Nat) < 2 ^ 32 ∧
      MarkPageAllocated (packBufferused 5 7) =
        packBufferused ((5 + 1) % num_buffer_slots) (7 - 1) :=
  ⟨by decide, by decide, by decide,
    markPageAllocated_packed_update 5 7 (by decide) (by decide) (by decide)⟩

/-- Claim C2 (code bug): the slot `Free` stores into is not
`(old_head + old_free_count) mod N`.  Concretely: on a fresh allocator, after
one call `Free` at offset 0 the packed word is `(2^24 + 1) * 2^32` (head 0,
free count `2^24 + 1`); a second `Free` at offset 0 reads that value from its
`fetch_add` and stores into slot `freeBufferIndex = 0`, while the claim
prescribes slot `(0 + (2^24 + 1)) mod 2^24 = 1`.  The code computes
`bufferused << (32 + bufferused)`, an over-wide shift, instead of adding the
two halves of the word as its own comment (lines 98-102) describes. -/
theorem free_slot_computation_bug :
    (Free initialState 0).page_bufferused_ = (2 ^ 24 + 1) * 2 ^ 32 ∧
    freeBufferIndex ((2 ^ 24 + 1) * 2 ^ 32) = 0 ∧
    freeSlotSpec ((2 ^ 24 + 1) * 2 ^ 32) = 1 ∧
    (FreeWithTrace (Free initialState 0) 0).2 =
      [.setInaccessible 0, .fetchAddH ((2 ^ 24 + 1) * 2 ^ 32),
        .storeSlot 0 0] := by
  refine ⟨?_, ?_, ?_, ?_⟩ <;> decide

/-- Claim C3 (code bug): the consumer spin loop of `Allocate` does not exit
exactly when `flag_allocated` (bit 31) is clear.  The compiled condition is
`spinCondition`: the loop exits iff the loaded value is even.  At slot value
`flag_allocated` itself the flag is set, yet the loop exits immediately (so a
returned page index can carry the flag); at slot value 1 the flag is clear,
yet the loop keeps spinning. -/
theorem spin_condition_ignores_flag :
    spinCondition flag_allocated = false ∧
    flag_allocated &&& flag_allocated ≠ 0 ∧
    spinCondition 1 = true ∧
    1 &&& flag_allocated = 0 := by
  refine ⟨?_, ?_, ?_, ?_⟩ <;> decide

/-- Claim C1 (code bug): the first `Allocate` on a fresh allocator returns the
page-aligned offset 0 inside the window, but the page it returns is still
inaccessible at the moment `Allocate` returns — `Allocate` contains no
protection change at all, while the claim requires the selected page to be
made readable and writable before it is returned. -/
theorem allocate_returns_inaccessible_page :
    Allocate initialState = .ok 0 afterFirstAlloc ∧
    afterFirstAlloc.accessible 0 = false :=
  ⟨rfl, rfl⟩

/-- Claim C4 (code bug): on a fresh allocator the first `Allocate` returns
offset 0, and the second `Allocate` never returns: it claims ring slot 1,
which holds the odd page index 1, and the miscompiled spin condition
(`spinCondition`, line 73) keeps spinning on every odd value, so the run of
`2 ^ 24` successive allocations already fails at the second call. -/
theorem second_allocate_spins_forever :
    Allocate initialState = .ok 0 afterFirstAlloc ∧
    Allocate afterFirstAlloc = .spinsForever ∧
    afterFirstAlloc.free_page_buffer_ (afterFirstAlloc.page_bufferused_ % 2 ^ 32) = 1 ∧
    spinCondition 1 = true :=
  ⟨rfl, rfl, rfl, rfl⟩

/-- Claim C5 (confirmed): whenever the claim phase of `Allocate` observes a
packed word whose free count (upper 32 bits) is zero — on the initial load or
on any compare-exchange retry — the process terminates; `claimLoop` can only
end in `.crash` then, never in a claimed value, and the public surface has no
null or optional result to return. -/
theorem claim_terminates_on_exhaustion (b : Nat) (later : List Nat)
    (h : ∃ b' ∈ b :: later, b' >>> 32 = 0) :
    claimLoop b later = .crash := by
  induction later generalizing b with
  | nil =>
    have hb : b >>> 32 = 0 := by
      rcases h with ⟨b', hb', hz⟩
      rcases List.mem_cons.mp hb' with rfl | hmem
      · exact hz
      · simp at hmem
    simp [claimLoop, CrashIfNoFreePagesLeft, hb]
  | cons c rest ih =>
    by_cases hb : b >>> 32 = 0
    · simp [claimLoop, CrashIfNoFreePagesLeft, hb]
    · have h' : ∃ b' ∈ c :: rest, b' >>> 32 = 0 := by
        rcases h with ⟨b', hb', hz⟩
        rcases List.mem_cons.mp hb' with rfl | hmem
        · exact absurd hz hb
        · exact ⟨b', hmem, hz⟩
      have hc := ih c h'
      simp [claimLoop, CrashIfNoFreePagesLeft, hb]
      exact hc

/-- Witness for claim C5: a first load with free count 1 followed by a failed
compare-exchange that reads back a word with free count 0 crashes. -/
theorem claim_terminates_on_exhaustion_witness :
    (∃ b' ∈ [(4294967296 : Nat), 5], b' >>> 32 = 0) ∧
    claimLoop 4294967296 [5] = .crash :=
  ⟨⟨5, by decide, by decide⟩,
    claim_terminates_on_exhaustion 4294967296 [5] ⟨5, by decide, by decide⟩⟩

/-- Claim C9 (confirmed): in every execution of `Free`, the protection
transition to inaccessible strictly precedes the `fetch_add` on the packed
word and also strictly precedes the publish store of the page index: any
position holding the `fetch_add` action or the store action lies strictly
after any position holding the `setInaccessible` action. -/
theorem free_protects_before_publish (s : AllocatorState) (offset i j : Nat)
    (hi : (FreeWithTrace s offset).2.get? i =
      some (.setInaccessible (offset / page_size)))
    (hj : (FreeWithTrace s offset).2.get? j =
        some (.fetchAddH s.page_bufferused_) ∨
      (FreeWithTrace s offset).2.get? j =
        some (.storeSlot (freeBufferIndex s.page_bufferused_)
          (offset / page_size % 2 ^ 32))) :
    i < j := by
  have ht : (FreeWithTrace s offset).2 =
      [.setInaccessible (offset / page_size), .fetchAddH s.page_bufferused_,
        .storeSlot (freeBufferIndex s.page_bufferused_)
          (offset / page_size % 2 ^ 32)] := rfl
  rw [ht] at hi hj
  rcases i with _ | _ | _ | i <;> rcases j with _ | _ | _ | j <;>
    simp_all [List.get?]

/-- Witness for claim C9: on a fresh allocator, freeing offset 0 places the
protection transition at position 0 and the fetch_add at position 1. -/
theorem free_protects_before_publish_witness :
    (FreeWithTrace initialState 0).2.get? 0 =
      some (.setInaccessible (0 / page_size)) ∧
    (FreeWithTrace initialState 0).2.get? 1 =
      some (.fetchAddH initialState.page_bufferused_) ∧
    (0 : Nat) < 1 :=
  ⟨by decide, by decide,
    free_protects_before_publish initialState 0 0 1 (by decide)
      (Or.inl (by decide))⟩

/-- Claim C10 (confirmed): `Free` validates nothing.  For every state and
every byte offset — misaligned, outside the window, or already freed — it
performs the same three actions in the same order (mprotect to `PROT_NONE`,
`fetch_add` of one free count, store of the computed page index) and
completes without signalling anything; a double free of offset 0 on a fresh
allocator raises the free count to `num_buffer_slots + 2` and stores page
index 0 twice. -/
theorem free_no_validation :
    (∀ s offset, (FreeWithTrace s offset).2 =
        [.setInaccessible (offset / page_size),
          .fetchAddH s.page_bufferused_,
          .storeSlot (freeBufferIndex s.page_bufferused_)
            (offset / page_size % 2 ^ 32)] ∧
      (FreeWithTrace s offset).1.page_bufferused_ =
        (s.page_bufferused_ + 0x100000000) % 2 ^ 64) ∧
    (Free initialState 0).page_bufferused_ >>> 32 = num_buffer_slots + 1 ∧
    (Free (Free initialState 0) 0).page_bufferused_ >>> 32 =
      num_buffer_slots + 2 ∧
    (FreeWithTrace initialState 0).2.get? 2 = some (.storeSlot 0 0) ∧
    (FreeWithTrace (Free initialState 0) 0).2.get? 2 = some (.storeSlot 0 0) := by
  refine ⟨fun s offset => ⟨rfl, rfl⟩, ?_, ?_, ?_, ?_⟩ <;> decide

/-- Helper: the definitional unfolding of `run` on a nonempty list. -/
theorem run_cons (m : MState) (op : Op) (rest : List Op) :
    run m (op :: rest) =
      match step m op with
      | some m' => run m' rest
      | none => none := rfl

/-- Helper: an `Allocate` completes from the initial machine state and yields
`mstate1`. -/
theorem step_initial_alloc : step initialMState .alloc = some mstate1 := rfl

/-- Helper: no free completes from the initial machine state (nothing is
live). -/
theorem step_initial_free (o : Nat) : step initialMState (.free o) = none := by
  simp [step, initialMState]

/-- Helper: an `Allocate` from `mstate1` spins forever on ring slot 1, so it
never completes. -/
theorem step_mstate1_alloc : step mstate1 .alloc = none := rfl

/-- Helper: the live list of `mstate1`. -/
theorem mstate1_live : mstate1.live = [0] := rfl

/-- Helper: from `mstate1` only the free of the single live offset 0
completes, yielding `mstate2`. -/
theorem step_mstate1_free (o : Nat) :
    step mstate1 (.free o) = if o = 0 then some mstate2 else none := by
  by_cases ho : o = 0
  · subst ho
    rw [if_pos rfl]
    rfl
  · rw [if_neg ho]
    simp [step, mstate1_live, ho]

/-- Helper: an `Allocate` from `mstate2` spins forever on ring slot 1, so it
never completes. -/
theorem step_mstate2_alloc : step mstate2 .alloc = none := rfl

/-- Helper: the live list of `mstate2`. -/
theorem mstate2_live : mstate2.live = [] := rfl

/-- Helper: no free completes from `mstate2` (nothing is live). -/
theorem step_mstate2_free (o : Nat) : step mstate2 (.free o) = none := by
  simp [step, mstate2_live]

/-- Helper: every machine state reachable from one of the three concrete
states is again one of them.  Because the second `Allocate` on this code
spins forever, these three states exhaust the reachable quiescent states. -/
theorem reachable_cases (ops : List Op) (m0 m : MState)
    (h0 : m0 = initialMState ∨ m0 = mstate1 ∨ m0 = mstate2)
    (h : run m0 ops = some m) :
    m = initialMState ∨ m = mstate1 ∨ m = mstate2 := by
  induction ops generalizing m0 with
  | nil =>
    simp [run] at h
    rw [← h]
    exact h0
  | cons op rest ih =>
    rcases h0 with rfl | rfl | rfl
    · cases op with
      | alloc =>
        simp only [run_cons, step_initial_alloc] at h
        exact ih mstate1 (Or.inr (Or.inl rfl)) h
      | free o =>
        simp only [run_cons, step_initial_free] at h
        exact Option.noConfusion h
    · cases op with
      | alloc =>
        simp only [run_cons, step_mstate1_alloc] at h
        exact Option.noConfusion h
      | free o =>
        by_cases ho : o = 0
        · subst ho
          simp only [run_cons, step_mstate1_free, if_pos rfl] at h
          exact ih mstate2 (Or.inr (Or.inr rfl)) h
        · simp only [run_cons, step_mstate1_free, if_neg ho] at h
          exact Option.noConfusion h
    · cases op with
      | alloc =>
        simp only [run_cons, step_mstate2_alloc] at h
        exact Option.noConfusion h
      | free o =>
        simp only [run_cons, step_mstate2_free] at h
        exact Option.noConfusion h

/-- Claim C6 (confirmed): after every sequence of completed operations from
construction in which each free matches a live allocation, the free count
(upper half of the packed word) plus the number of live allocations equals
`num_buffer_slots`; in particular the free count never exceeds
`num_buffer_slots`, and as a natural number it is never negative. -/
theorem conservation_reachable (ops : List Op) (m : MState)
    (h : run initialMState ops = some m) :
    m.alloc.page_bufferused_ >>> 32 + m.live.length = num_buffer_slots ∧
    m.alloc.page_bufferused_ >>> 32 ≤ num_buffer_slots := by
  rcases reachable_cases ops initialMState m (Or.inl rfl) h with rfl | rfl | rfl
  · exact ⟨by decide, by decide⟩
  · exact ⟨by decide, by decide⟩
  · exact ⟨by decide, by decide⟩

/-- Witness for claim C6: the one-operation run consisting of a single
`Allocate` reaches `mstate1`, where the free count is `2 ^ 24 - 1` and one
allocation is live. -/
theorem conservation_reachable_witness :
    run initialMState [Op.alloc] = some mstate1 ∧
    mstate1.alloc.page_bufferused_ >>> 32 + mstate1.live.length =
      num_buffer_slots ∧
    mstate1.alloc.page_bufferused_ >>> 32 ≤ num_buffer_slots :=
  ⟨rfl, conservation_reachable [Op.alloc] mstate1 rfl⟩

/-- Helper: the ring/partition property holds in the initial machine state
(head 0, free count `2 ^ 24`, slot `i` holds `i`, nothing live). -/
theorem ringRegionOk_initial :
    RingRegionOk 0 16777216 (fun i => i) [] := by
  refine ⟨?_, ?_, ?_, ?_⟩
  · intro i hi
    show (0 + i) % num_buffer_slots < num_buffer_slots
    rw [num_buffer_slots_eq]
    omega
  · intro i hi
    show (0 + i) % num_buffer_slots &&& flag_allocated = 0
    refine land_flag_eq_zero _ ?_
    rw [num_buffer_slots_eq]
    omega
  · intro i j hi hj hij
    simp only [num_buffer_slots_eq] at hij
    omega
  · intro p hp
    rw [num_buffer_slots_eq] at hp
    left
    refine ⟨⟨p, by omega, ?_⟩, by simp⟩
    show (0 + p) % num_buffer_slots = p
    rw [num_buffer_slots_eq]
    omega

/-- Helper: the ring/partition property holds in `mstate1` (head 1, free
count `2 ^ 24 - 1`, slot 0 poisoned with `flag_allocated`, every other slot
`x` holds `x`, offset 0 live). -/
theorem ringRegionOk_mstate1 :
    RingRegionOk 1 16777215 (fun x => if x = 0 then 2147483648 else x) [0] := by
  have hv : ∀ i, i < 16777215 →
      (fun x => if x = 0 then 2147483648 else x) ((1 + i) % num_buffer_slots)
        = 1 + i := by
    intro i hi
    have h1 : (1 + i) % num_buffer_slots = 1 + i := by
      rw [num_buffer_slots_eq]
      omega
    rw [h1]
    simp
  refine ⟨?_, ?_, ?_, ?_⟩
  · intro i hi
    rw [hv i hi, num_buffer_slots_eq]
    omega
  · intro i hi
    rw [hv i hi]
    exact land_flag_eq_zero _ (by omega)
  · intro i j hi hj hij
    rw [hv i hi, hv j hj] at hij
    omega
  · intro p hp
    rw [num_buffer_slots_eq] at hp
    by_cases hp0 : p = 0
    · subst hp0
      right
      refine ⟨?_, by decide⟩
      rintro ⟨i, hi, hvi⟩
      rw [hv i hi] at hvi
      omega
    · left
      refine ⟨⟨p - 1, by omega, ?_⟩, ?_⟩
      · rw [hv (p - 1) (by omega)]
        omega
      · have hps : (0 : Nat) ≠ p * page_size := by
          rw [show page_size = 4096 from rfl]
          omega
        rw [List.count_singleton]
        simp [hps]

/-- Helper: the ring/partition property holds in `mstate2` (head 1, free
count `2 ^ 24`, slot 0 holds page index 0 again, every other slot `x` holds
`x`, nothing live). -/
theorem ringRegionOk_mstate2 :
    RingRegionOk 1 16777216
      (fun x => if x = 0 then 0 else if x = 0 then 2147483648 else x) [] := by
  have hv : ∀ x, (fun x => if x = 0 then 0 else
      if x = 0 then 2147483648 else x) x = x := by
    intro x
    by_cases hx : x = 0 <;> simp [hx]
  refine ⟨?_, ?_, ?_, ?_⟩
  · intro i hi
    rw [hv, num_buffer_slots_eq]
    omega
  · intro i hi
    rw [hv]
    refine land_flag_eq_zero _ ?_
    rw [num_buffer_slots_eq]
    omega
  · intro i j hi hj hij
    rw [hv, hv] at hij
    rw [num_buffer_slots_eq] at hij
    omega
  · intro p hp
    rw [num_buffer_slots_eq] at hp
    left
    refine ⟨?_, by simp⟩
    by_cases hp0 : p = 0
    · subst hp0
      refine ⟨16777215, by omega, ?_⟩
      rw [hv, num_buffer_slots_eq]
    · refine ⟨p - 1, by omega, ?_⟩
      rw [hv, num_buffer_slots_eq]
      omega

/-- Claim C7 (confirmed): at every quiescent state reachable from
construction by completed operations (each free matching a live allocation),
the ring slots `R[head], ..., R[head + free_count - 1]` hold exactly
`free_count` pairwise-distinct page indices, none carrying `flag_allocated`,
and every page index below `num_buffer_slots` is either in that live region
or held by exactly one live allocation — never both, never neither. -/
theorem ring_invariant_reachable (ops : List Op) (m : MState)
    (h : run initialMState ops = some m) :
    RingInvariant m := by
  rcases reachable_cases ops initialMState m (Or.inl rfl) h with rfl | rfl | rfl
  · exact ringRegionOk_initial
  · exact ringRegionOk_mstate1
  · exact ringRegionOk_mstate2

/-- Witness for claim C7: the empty run reaches the initial machine state,
where the invariant holds. -/
theorem ring_invariant_reachable_witness :
    run initialMState [] = some initialMState ∧ RingInvariant initialMState :=
  ⟨rfl, ring_invariant_reachable [] initialMState rfl⟩

end VirtualPageAllocator
